import Mathlib

/-
  Verification of the hangman CLI (src/main.rs) against its specification.

  The embedding models:
  * the `Config` struct, its `Default` impl (non-Windows branch, parameterized
    by the HOME directory) and its figment `Provider::data` impl;
  * figment dictionaries and `extract::<Config>()` (serde semantics);
  * the configuration resolution in `main` (lines 330-378);
  * the savefile bootstrap in `main` (lines 381-393);
  * `verify_toml_file`, `handle_new` and the level mapping of `init_logger`.

  The file system is modelled as an association list of regular files plus a
  list of directories.  Each regular file carries its content at the
  granularity the program reads it: raw text, or text whose TOML parse is a
  config record / savefile record (a `raw` entry at a path read as TOML models
  a malformed TOML file).  Randomness is modelled by an arbitrary natural
  number draw, and the network by an optional response.
-/

set_option autoImplicit false

namespace Hangman

/-- A TOML-style primitive value as stored in a figment dictionary. -/
inductive FigValue where
  | str (s : String)
  | int (n : Nat)
deriving DecidableEq

/-- A figment dictionary restricted to the four recognized configuration keys;
`none` means the key is absent from the dictionary. -/
structure Dict where
  wordlist : Option FigValue
  savefile : Option FigValue
  logfile : Option FigValue
  strikes : Option FigValue
deriving DecidableEq

/-- The resolved configuration, src/main.rs `struct Config`: three optional
paths and a `u8` strike count (paths are modelled as strings). -/
structure Config where
  wordlist : Option String
  savefile : Option String
  logfile : Option String
  strikes : Nat
deriving DecidableEq

/-- `Config::default` (src/main.rs lines 86-119), non-Windows branch,
parameterized by the value of the HOME environment variable. -/
def Config.defaultFor (home : String) : Config :=
  { wordlist := none
  , savefile := some (home ++ "/.config/hangman_current_game.toml")
  , logfile := some (home ++ "/.config/hangman.log")
  , strikes := 8 }

/-- The path-to-string conversion in `Provider::data` for `Config`
(src/main.rs lines 129-140): an unset path is encoded as the string
literal `None`. -/
def optPathStr : Option String → String
  | none => "None"
  | some p => p

/-- `Provider::data` for `Config` (src/main.rs lines 126-150): every key is
present in the dictionary, paths as strings (with `None` encoded as the
string literal), strikes as an integer. -/
def Config.toDict (c : Config) : Dict :=
  { wordlist := some (FigValue.str (optPathStr c.wordlist))
  , savefile := some (FigValue.str (optPathStr c.savefile))
  , logfile := some (FigValue.str (optPathStr c.logfile))
  , strikes := some (FigValue.int c.strikes) }

/-- A well-typed TOML configuration file: each recognized key may be present
or absent. -/
structure ConfigFile where
  wordlist : Option String
  savefile : Option String
  logfile : Option String
  strikes : Option Nat
deriving DecidableEq

/-- The figment dictionary produced by `Toml::file` on a config file: exactly
the keys the file sets. -/
def ConfigFile.toDict (f : ConfigFile) : Dict :=
  { wordlist := f.wordlist.map FigValue.str
  , savefile := f.savefile.map FigValue.str
  , logfile := f.logfile.map FigValue.str
  , strikes := f.strikes.map FigValue.int }

/-- serde extraction of an `Option<PathBuf>` field: a missing key
deserializes to `None`, any string value to `Some` of that path (including
the string literal `None`), and a non-string value is a type error. -/
def extractPathField : Option FigValue → Option (Option String)
  | none => some none
  | some (FigValue.str s) => some (some s)
  | some (FigValue.int _) => none

/-- serde extraction of the required `strikes: u8` field: the key must be
present, an integer, and in `u8` range. -/
def extractStrikes : Option FigValue → Option Nat
  | some (FigValue.int n) => if n ≤ 255 then some n else none
  | _ => none

/-- `figment.extract::<Config>()` on a dictionary; `none` models a
deserialization failure. -/
def extractConfig (d : Dict) : Option Config := do
  let w ← extractPathField d.wordlist
  let s ← extractPathField d.savefile
  let l ← extractPathField d.logfile
  let k ← extractStrikes d.strikes
  pure ⟨w, s, l, k⟩

/-- Persisted game state, src/main.rs `struct Savefile`. -/
structure Savefile where
  word : String
  guessed : List Char
  correct : List Char
  incorrect : List Char
  strikes_left : Nat
deriving DecidableEq

/-- `Savefile::default` (src/main.rs lines 162-172). -/
def Savefile.defaultValue : Savefile :=
  { word := "", guessed := [], correct := [], incorrect := [], strikes_left := 8 }

/-- Content of a regular file at the granularity the program reads it. -/
inductive FContent where
  | raw (s : String)
  | configToml (c : ConfigFile)
  | savefileToml (s : Savefile)
deriving DecidableEq

/-- A model file system: regular files with their contents, and directories. -/
structure FS where
  files : List (String × FContent)
  dirs : List String
deriving DecidableEq

/-- Rust `Path::is_file`. -/
def FS.isFile (fs : FS) (p : String) : Bool :=
  (fs.files.lookup p).isSome

/-- Rust `Path::is_dir`. -/
def FS.isDir (fs : FS) (p : String) : Bool :=
  fs.dirs.contains p

/-- Rust `Path::exists`. -/
def FS.pathExists (fs : FS) (p : String) : Bool :=
  fs.isFile p || fs.isDir p

/-- `std::fs::read_to_string`, defined on raw text files. -/
def FS.readToString (fs : FS) (p : String) : Option String :=
  match fs.files.lookup p with
  | some (FContent.raw s) => some s
  | _ => none

/-- `Toml::file(p)` read as a `Config` provider: succeeds exactly when the
file at `p` is config-shaped TOML. -/
def FS.readConfigToml (fs : FS) (p : String) : Option ConfigFile :=
  match fs.files.lookup p with
  | some (FContent.configToml c) => some c
  | _ => none

/-- `Toml::file(p)` read as a `Savefile` provider: succeeds exactly when the
file at `p` is savefile-shaped TOML. -/
def FS.readSavefileToml (fs : FS) (p : String) : Option Savefile :=
  match fs.files.lookup p with
  | some (FContent.savefileToml s) => some s
  | _ => none

/-- `File::create` followed by writing the serialized savefile record. -/
def FS.writeSavefile (fs : FS) (p : String) (sv : Savefile) : FS :=
  { fs with files := (p, FContent.savefileToml sv) :: fs.files }

/-- Split a character list at every occurrence of `sep` (the semantics of a
single-character `split`). -/
def splitOnChar (sep : Char) : List Char → List (List Char)
  | [] => [[]]
  | c :: rest =>
    match splitOnChar sep rest with
    | [] => [[c]]
    | h :: t => if c = sep then [] :: h :: t else (c :: h) :: t

/-- The final path component, as Rust `Path::file_name` for ordinary paths. -/
def fileNameOf (p : String) : List Char :=
  (splitOnChar '/' p.toList).getLastD []

/-- Rust `Path::extension`: the part of the file name after the last dot;
`none` when the name has no dot at all, or when its only dot is the leading
character of a hidden file. -/
def pathExtension (p : String) : Option String :=
  let name := fileNameOf p
  let ext := name.reverse.takeWhile (fun c => c ≠ '.')
  if ext.length = name.length then none
  else if ext.length + 1 = name.length then none
  else some (String.mk ext.reverse)

/-- src/main.rs `verify_toml_file` (lines 267-269). -/
def verify_toml_file (fs : FS) (p : String) : Bool :=
  fs.pathExists p && fs.isFile p && (pathExtension p == some "toml")

/-- The figment assembled by `main` (src/main.rs lines 330-372): a valid
explicit `--config` path, or else (only when no explicit path was given) a
valid `HANGMAN_CONFIG` path, replaces the default-seeded figment with a
figment holding the TOML file alone; every other case leaves the figment
holding `Config::default()` as its only provider.  `none` models a file that
passed `verify_toml_file` but whose content fails to parse. -/
def resolvedFigment (home : String) (fs : FS)
    (cliConfig : Option String) (envConfig : Option String) : Option Dict :=
  match cliConfig with
  | some config =>
    if verify_toml_file fs config then
      (fs.readConfigToml config).map ConfigFile.toDict
    else
      some ((Config.defaultFor home).toDict)
  | none =>
    match envConfig with
    | some file =>
      if verify_toml_file fs file then
        (fs.readConfigToml file).map ConfigFile.toDict
      else
        some ((Config.defaultFor home).toDict)
    | none => some ((Config.defaultFor home).toDict)

/-- `figment.extract::<Config>()` in `main` (src/main.rs lines 374-376);
`none` models the fatal `expect("Failed to extract configuration")`. -/
def resolveConfig (home : String) (fs : FS)
    (cliConfig envConfig : Option String) : Option Config :=
  (resolvedFigment home fs cliConfig envConfig).bind extractConfig

/-- Follows the spec's words, for comparison with `resolveConfig`: the
claimed merge of config-file values over the compiled-in defaults, where
every key the file sets takes the file's value and every key the file omits
falls back to the default. -/
def specMergeOverDefaults (f : ConfigFile) (d : Config) : Config :=
  { wordlist := match f.wordlist with | some w => some w | none => d.wordlist
  , savefile := match f.savefile with | some s => some s | none => d.savefile
  , logfile := match f.logfile with | some l => some l | none => d.logfile
  , strikes := f.strikes.getD d.strikes }

/-- Rust `Path::parent` on string paths: the prefix before the final
separator (the empty path for a bare file name), `none` for the empty path. -/
def parentPath (p : String) : Option String :=
  if p = "" then none
  else
    let comps := splitOnChar '/' p.toList
    if comps.length ≤ 1 then some ""
    else some (String.mk ((comps.dropLast.map (fun c => c ++ ['/'])).flatten.dropLast))

/-- The savefile bootstrap in `main` (src/main.rs lines 381-393): when
nothing exists at the resolved savefile path, create the parent directory
and write a default savefile; otherwise do nothing. -/
def ensureSavefile (fs : FS) (p : String) : FS :=
  if fs.pathExists p then fs
  else
    let fs1 : FS :=
      match parentPath p with
      | some par => { fs with dirs := par :: fs.dirs }
      | none => fs
    { fs1 with files := (p, FContent.savefileToml Savefile.defaultValue) :: fs1.files }

/-- The character class stripped by `handle_new`'s `trim_matches` call
(src/main.rs line 240): brackets and double quotes. -/
def isStripChar (c : Char) : Bool :=
  c = '[' || c = ']' || c = Char.ofNat 34

/-- `trim_matches` with a character predicate: repeatedly remove matching
characters from both ends. -/
def trimMatchesList (cs : List Char) : List Char :=
  ((cs.dropWhile isStripChar).reverse.dropWhile isStripChar).reverse

/-- Word normalization in `handle_new` (src/main.rs lines 239-242):
`trim_matches` over brackets and quotes, followed by the identity
`parse::<String>()`. -/
def normalizeWord (s : String) : String :=
  String.mk (trimMatchesList s.toList)

/-- Remove a single trailing carriage return, as Rust `str::lines` does for
each line that was terminated by a newline. -/
def stripCRList (l : List Char) : List Char :=
  match l.getLast? with
  | some c => if c = '\r' then l.dropLast else l
  | none => l

/-- Process the chunks produced by splitting at every newline: a trailing
empty chunk (the optional final line terminator) is dropped, every chunk
that was followed by a newline loses one trailing carriage return, and the
final unterminated chunk is kept verbatim. -/
def rustLinesAux : List (List Char) → List (List Char)
  | [] => []
  | [last] => if last = [] then [] else [last]
  | l :: rest => stripCRList l :: rustLinesAux rest

/-- Rust `str::lines`, as used on the wordlist file contents
(src/main.rs lines 218-222). -/
def rustLines (s : String) : List String :=
  (rustLinesAux (splitOnChar '\n' s.toList)).map String.mk

/-- The word `handle_new` selects, before normalization: the line of the
wordlist file at the random draw (uniform over the lines), or the raw API
response; `none` when selection cannot happen (unreadable file or empty
line range or failed network request). -/
def chosenWord (file : Option String) (fs : FS) (rngIdx : Nat)
    (apiResp : Option String) : Option String :=
  match file with
  | some fp =>
    match fs.readToString fp with
    | some content =>
      let wl := rustLines content
      if wl.length = 0 then none else some (wl.getD (rngIdx % wl.length) "")
    | none => none
  | none => apiResp

/-- Outcome of running `handle_new`: `exited` models `std::process::exit`,
`panicked` models a panic (`unwrap`/`expect` failure or an out-of-range
index), `ok` carries the savefile record that was written. -/
inductive NewOutcome where
  | exited (code : Nat)
  | panicked
  | ok (written : Savefile)
deriving DecidableEq

/-- The tail of `handle_new` (src/main.rs lines 239-265): normalize the
chosen word, load the existing savefile (a parse failure is the fatal
`expect("Failed to load savefile")`), then create the savefile anew with a
fresh record: the normalized word, empty guess lists, and `strikes_left`
hard-coded to 8. -/
def finishNew (random_word : String) (savefilePath : String) (fs : FS) :
    NewOutcome × FS :=
  match fs.readSavefileToml savefilePath with
  | none => (NewOutcome.panicked, fs)
  | some _old =>
    let record : Savefile :=
      { word := normalizeWord random_word
      , guessed := [], correct := [], incorrect := []
      , strikes_left := 8 }
    (NewOutcome.ok record, fs.writeSavefile savefilePath record)

/-- src/main.rs `handle_new` (lines 205-265).  `rngIdx` models the thread
RNG draw (`gen_range(0..len)` is its value reduced modulo `len`, and panics
when the range is empty), `apiResp` models the network response (`none` is a
failed request, which the code turns into a panic via `expect`). -/
def handle_new (file : Option String) (savefilePath : String) (fs : FS)
    (rngIdx : Nat) (apiResp : Option String) : NewOutcome × FS :=
  match file with
  | some filePath =>
    if !(fs.pathExists filePath) then (NewOutcome.exited 1, fs)
    else if fs.isDir filePath then (NewOutcome.exited 1, fs)
    else
      match fs.readToString filePath with
      | none => (NewOutcome.panicked, fs)
      | some content =>
        let wordlist := rustLines content
        if wordlist.length = 0 then (NewOutcome.panicked, fs)
        else finishNew (wordlist.getD (rngIdx % wordlist.length) "") savefilePath fs
  | none =>
    match apiResp with
    | none => (NewOutcome.panicked, fs)
    | some t => finishNew t savefilePath fs

/-- The `log::LevelFilter` values `init_logger` can select. -/
inductive LevelFilter where
  | error
  | warn
  | info
  | debug
deriving DecidableEq

/-- The debug-level-to-filter mapping in `init_logger`
(src/main.rs lines 290-297). -/
def init_logger_level (d : Nat) : LevelFilter :=
  match d with
  | 0 => LevelFilter.error
  | 1 => LevelFilter.warn
  | 2 => LevelFilter.info
  | 3 => LevelFilter.debug
  | _ => LevelFilter.error

/-! ## Helper lemmas -/

theorem dropWhile_append_of_forall (p : Char → Bool) (a b : List Char)
    (h : ∀ x ∈ a, p x = true) :
    List.dropWhile p (a ++ b) = List.dropWhile p b := by
  induction a with
  | nil => rfl
  | cons x xs ih =>
    have hx : p x = true := h x (by simp)
    simp only [List.cons_append, List.dropWhile_cons, hx, if_true]
    exact ih (fun y hy => h y (by simp [hy]))

theorem dropWhile_eq_nil_of_forall (p : Char → Bool) (a : List Char)
    (h : ∀ x ∈ a, p x = true) : List.dropWhile p a = [] := by
  have := dropWhile_append_of_forall p a [] h
  simpa using this

theorem dropWhile_eq_self_of_head (p : Char → Bool) (b : List Char)
    (h : ∀ x, b.head? = some x → p x = false) :
    List.dropWhile p b = b := by
  cases b with
  | nil => rfl
  | cons x xs =>
    have hx : p x = false := h x rfl
    simp [List.dropWhile_cons, hx]

theorem extractPathField_map_str (o : Option String) :
    extractPathField (o.map FigValue.str) = some o := by
  cases o <;> rfl

theorem ensureSavefile_noop (fs : FS) (p : String) (h : fs.pathExists p = true) :
    ensureSavefile fs p = fs := by
  unfold ensureSavefile
  simp [h]

theorem ensureSavefile_creates (fs : FS) (p : String) :
    (ensureSavefile fs p).pathExists p = true := by
  unfold ensureSavefile
  by_cases h : fs.pathExists p = true
  · simp [h]
  · simp only [h, if_false, Bool.false_eq_true]
    cases hpp : parentPath p <;>
      simp [FS.pathExists, FS.isFile, List.lookup]

theorem finishNew_ok (w sp : String) (fs : FS) (sv : Savefile) (fs2 : FS)
    (h : finishNew w sp fs = (NewOutcome.ok sv, fs2)) :
    sv = ⟨normalizeWord w, [], [], [], 8⟩ ∧ fs2 = fs.writeSavefile sp sv := by
  unfold finishNew at h
  cases hs : fs.readSavefileToml sp with
  | none => rw [hs] at h; simp at h
  | some old =>
    rw [hs] at h
    simp only [Prod.mk.injEq, NewOutcome.ok.injEq] at h
    obtain ⟨h1, h2⟩ := h
    subst h1
    exact ⟨rfl, h2.symm⟩

/-! ## Claim theorems -/

/-- Claim C10: `init_logger` maps debug levels 0, 1, 2, 3 to the Error,
Warn, Info and Debug filters respectively, and every debug value greater
than 3 falls back to the Error filter. -/
theorem init_logger_level_mapping :
    init_logger_level 0 = LevelFilter.error ∧
    init_logger_level 1 = LevelFilter.warn ∧
    init_logger_level 2 = LevelFilter.info ∧
    init_logger_level 3 = LevelFilter.debug ∧
    ∀ d : Nat, 3 < d → init_logger_level d = LevelFilter.error := by
  refine ⟨rfl, rfl, rfl, rfl, ?_⟩
  intro d hd
  obtain ⟨k, rfl⟩ : ∃ k, d = k + 4 := ⟨d - 4, by omega⟩
  rfl

/-- Witness for C10: debug level 4 maps to the Error filter. -/
theorem init_logger_level_mapping_witness :
    init_logger_level 4 = LevelFilter.error :=
  init_logger_level_mapping.2.2.2.2 4 (by decide)

/-- Claim C8: word normalization strips all leading and trailing bracket
and quote characters and leaves interior characters unchanged; in
particular the input wrapped as a bracketed quoted word normalizes to the
bare word `apple`. -/
theorem normalize_word_strips_wrapping (a b c : List Char)
    (ha : ∀ x ∈ a, isStripChar x = true)
    (hc : ∀ x ∈ c, isStripChar x = true)
    (hb1 : ∀ x, b.head? = some x → isStripChar x = false)
    (hb2 : ∀ x, b.getLast? = some x → isStripChar x = false) :
    trimMatchesList (a ++ b ++ c) = b ∧
    normalizeWord "[\x22apple\x22]" = "apple" := by
  constructor
  · unfold trimMatchesList
    have h1 : List.dropWhile isStripChar (a ++ b ++ c) =
        List.dropWhile isStripChar (b ++ c) := by
      rw [List.append_assoc]
      exact dropWhile_append_of_forall _ a (b ++ c) ha
    rw [h1]
    cases b with
    | nil =>
      simp only [List.nil_append]
      rw [dropWhile_eq_nil_of_forall _ c hc]
      rfl
    | cons x xs =>
      have hx : isStripChar x = false := hb1 x rfl
      rw [dropWhile_eq_self_of_head _ ((x :: xs) ++ c)
        (by
          intro y hy
          simp only [List.cons_append, List.head?_cons, Option.some.injEq] at hy
          subst hy
          exact hx)]
      rw [List.reverse_append]
      rw [dropWhile_append_of_forall _ c.reverse (x :: xs).reverse
        (by
          intro y hy
          exact hc y (List.mem_reverse.mp hy))]
      rw [dropWhile_eq_self_of_head _ (x :: xs).reverse
        (by
          intro y hy
          rw [List.head?_reverse] at hy
          exact hb2 y hy)]
      exact List.reverse_reverse _
  · decide

/-- Witness for C8: stripping the concrete wrapping of `apple`. -/
theorem normalize_word_strips_wrapping_witness :
    trimMatchesList (['[', Char.ofNat 34] ++ "apple".toList ++ [Char.ofNat 34, ']']) =
      "apple".toList ∧
    normalizeWord "[\x22apple\x22]" = "apple" :=
  normalize_word_strips_wrapping ['[', Char.ofNat 34] "apple".toList
    [Char.ofNat 34, ']']
    (by decide)
    (by decide)
    (by
      intro x hx
      have h2 : ("apple".toList.head?) = some 'a' := by decide
      rw [h2] at hx
      cases hx
      decide)
    (by
      intro x hx
      have h2 : ("apple".toList.getLast?) = some 'e' := by decide
      rw [h2] at hx
      cases hx
      decide)

/-- Claim C5: the savefile bootstrap is idempotent: when a file already
exists at the resolved path it is a no-op, so running it twice produces
the same file system as running it once. -/
theorem ensure_savefile_idempotent (fs : FS) (p : String) :
    (fs.pathExists p = true → ensureSavefile fs p = fs) ∧
    ensureSavefile (ensureSavefile fs p) p = ensureSavefile fs p :=
  ⟨fun h => ensureSavefile_noop fs p h,
   ensureSavefile_noop (ensureSavefile fs p) p (ensureSavefile_creates fs p)⟩

/-- Witness for C5: a concrete file system where the savefile exists. -/
theorem ensure_savefile_idempotent_witness :
    ensureSavefile ⟨[("/s.toml", FContent.savefileToml Savefile.defaultValue)], []⟩
        "/s.toml" =
      ⟨[("/s.toml", FContent.savefileToml Savefile.defaultValue)], []⟩ ∧
    ensureSavefile
        (ensureSavefile
          ⟨[("/s.toml", FContent.savefileToml Savefile.defaultValue)], []⟩ "/s.toml")
        "/s.toml" =
      ensureSavefile
        ⟨[("/s.toml", FContent.savefileToml Savefile.defaultValue)], []⟩ "/s.toml" :=
  ⟨(ensure_savefile_idempotent
      ⟨[("/s.toml", FContent.savefileToml Savefile.defaultValue)], []⟩ "/s.toml").1
      (by decide),
   (ensure_savefile_idempotent
      ⟨[("/s.toml", FContent.savefileToml Savefile.defaultValue)], []⟩ "/s.toml").2⟩

/-- Claim C6: when the supplied wordlist path does not exist, or is a
directory, `handle_new` terminates with exit status 1 and leaves the file
system (in particular any existing savefile) unmodified. -/
theorem handle_new_invalid_wordlist_exits (fp sp : String) (fs : FS) (i : Nat)
    (api : Option String) (h : fs.pathExists fp = false ∨ fs.isDir fp = true) :
    handle_new (some fp) sp fs i api = (NewOutcome.exited 1, fs) := by
  unfold handle_new
  rcases h with h | h
  · simp [h]
  · by_cases he : fs.pathExists fp = true
    · simp [he, h]
    · simp only [Bool.not_eq_true] at he
      simp [he]

/-- Witness for C6: a directory supplied as the wordlist path. -/
theorem handle_new_invalid_wordlist_exits_witness :
    handle_new (some "/d") "/s.toml" ⟨[], ["/d"]⟩ 0 none =
      (NewOutcome.exited 1, (⟨[], ["/d"]⟩ : FS)) :=
  handle_new_invalid_wordlist_exits "/d" "/s.toml" ⟨[], ["/d"]⟩ 0 none
    (Or.inr (by decide))

/-- Claim C9: a wordlist file that exists, is not a directory, and is empty
yields zero lines, so the random draw is over an empty range and
`handle_new` panics rather than exiting with a user-facing error. -/
theorem handle_new_empty_wordlist_panics (fp sp : String) (fs : FS) (i : Nat)
    (api : Option String)
    (hread : fs.files.lookup fp = some (FContent.raw ""))
    (hdir : fs.isDir fp = false) :
    handle_new (some fp) sp fs i api = (NewOutcome.panicked, fs) := by
  have hfile : fs.isFile fp = true := by
    unfold FS.isFile
    rw [hread]
    rfl
  have hex : fs.pathExists fp = true := by
    unfold FS.pathExists
    rw [hfile, hdir]
    rfl
  have hrts : fs.readToString fp = some "" := by
    unfold FS.readToString
    rw [hread]
  have hempty : rustLines "" = [] := by decide
  simp [handle_new, hex, hdir, hrts, hempty]

/-- Witness for C9: an empty wordlist file. -/
theorem handle_new_empty_wordlist_panics_witness :
    handle_new (some "/w.txt") "/s.toml" ⟨[("/w.txt", FContent.raw "")], []⟩ 5 none =
      (NewOutcome.panicked, (⟨[("/w.txt", FContent.raw "")], []⟩ : FS)) :=
  handle_new_empty_wordlist_panics "/w.txt" "/s.toml"
    ⟨[("/w.txt", FContent.raw "")], []⟩ 5 none (by decide) (by decide)

/-- Claim C7: for a wordlist file whose lines are exactly one word, every
possible random draw selects that word, and `handle_new` writes it (after
normalization) to the savefile. -/
theorem handle_new_singleton_wordlist (fp sp : String) (fs : FS) (i : Nat)
    (api : Option String) (content w : String) (old : Savefile)
    (hread : fs.files.lookup fp = some (FContent.raw content))
    (hdir : fs.isDir fp = false)
    (hw : rustLines content = [w])
    (hsave : fs.readSavefileToml sp = some old) :
    handle_new (some fp) sp fs i api =
      (NewOutcome.ok ⟨normalizeWord w, [], [], [], 8⟩,
       fs.writeSavefile sp ⟨normalizeWord w, [], [], [], 8⟩) := by
  have hfile : fs.isFile fp = true := by
    unfold FS.isFile
    rw [hread]
    rfl
  have hex : fs.pathExists fp = true := by
    unfold FS.pathExists
    rw [hfile, hdir]
    rfl
  have hrts : fs.readToString fp = some content := by
    unfold FS.readToString
    rw [hread]
  simp [handle_new, hex, hdir, hrts, hw, finishNew, hsave, Nat.mod_one]

/-- Witness for C7: a singleton wordlist containing `apple`, with a nonzero
random draw. -/
theorem handle_new_singleton_wordlist_witness :
    handle_new (some "/w.txt") "/s.toml"
        ⟨[("/w.txt", FContent.raw "apple"),
          ("/s.toml", FContent.savefileToml Savefile.defaultValue)], []⟩ 7 none =
      (NewOutcome.ok ⟨normalizeWord "apple", [], [], [], 8⟩,
       FS.writeSavefile
        ⟨[("/w.txt", FContent.raw "apple"),
          ("/s.toml", FContent.savefileToml Savefile.defaultValue)], []⟩
        "/s.toml" ⟨normalizeWord "apple", [], [], [], 8⟩) :=
  handle_new_singleton_wordlist "/w.txt" "/s.toml"
    ⟨[("/w.txt", FContent.raw "apple"),
      ("/s.toml", FContent.savefileToml Savefile.defaultValue)], []⟩ 7 none
    "apple" "apple" Savefile.defaultValue
    (by decide) (by decide) (by decide) (by decide)

/-- Claim C3: whenever `handle_new` completes successfully, the savefile
record it writes has `strikes_left` equal to the constant 8 (the resolved
configuration's strike count is never consulted: it is not even an input of
`handle_new`), the word equal to the normalization of the chosen word, and
empty guessed, correct and incorrect lists; the record is written at the
savefile path. -/
theorem handle_new_writes_fresh_record (file : Option String) (sp : String)
    (fs : FS) (i : Nat) (api : Option String) (sv : Savefile) (fs2 : FS)
    (h : handle_new file sp fs i api = (NewOutcome.ok sv, fs2)) :
    sv.strikes_left = 8 ∧ sv.guessed = [] ∧ sv.correct = [] ∧ sv.incorrect = [] ∧
    (∃ cw, chosenWord file fs i api = some cw ∧ sv.word = normalizeWord cw) ∧
    fs2 = fs.writeSavefile sp sv := by
  cases file with
  | none =>
    cases api with
    | none => simp [handle_new] at h
    | some t =>
      have hf := finishNew_ok t sp fs sv fs2 (by simpa [handle_new] using h)
      obtain ⟨h1, h2⟩ := hf
      subst h1
      exact ⟨rfl, rfl, rfl, rfl, ⟨t, rfl, rfl⟩, h2⟩
  | some fp =>
    by_cases hex : fs.pathExists fp = true
    · by_cases hdir : fs.isDir fp = true
      · simp [handle_new, hex, hdir] at h
      · simp only [Bool.not_eq_true] at hdir
        cases hrts : fs.readToString fp with
        | none => simp [handle_new, hex, hdir, hrts] at h
        | some content =>
          by_cases hlen : (rustLines content).length = 0
          · simp [handle_new, hex, hdir, hrts, hlen] at h
          · have hstep : handle_new (some fp) sp fs i api =
                finishNew ((rustLines content).getD (i % (rustLines content).length) "")
                  sp fs := by
              simp [handle_new, hex, hdir, hrts, hlen]
            rw [hstep] at h
            obtain ⟨h1, h2⟩ := finishNew_ok _ sp fs sv fs2 h
            subst h1
            refine ⟨rfl, rfl, rfl, rfl, ⟨_, ?_, rfl⟩, h2⟩
            simp [chosenWord, hrts, hlen]
    · simp only [Bool.not_eq_true] at hex
      simp [handle_new, hex] at h

/-- Witness for C3: a successful run from a singleton wordlist. -/
theorem handle_new_writes_fresh_record_witness :
    (Savefile.mk "apple" [] [] [] 8).strikes_left = 8 ∧
    (Savefile.mk "apple" [] [] [] 8).guessed = [] ∧
    (Savefile.mk "apple" [] [] [] 8).correct = [] ∧
    (Savefile.mk "apple" [] [] [] 8).incorrect = [] ∧
    (∃ cw, chosenWord (some "/w.txt")
        ⟨[("/w.txt", FContent.raw "apple"),
          ("/s.toml", FContent.savefileToml Savefile.defaultValue)], []⟩ 0 none =
          some cw ∧
        (Savefile.mk "apple" [] [] [] 8).word = normalizeWord cw) ∧
    FS.writeSavefile
        ⟨[("/w.txt", FContent.raw "apple"),
          ("/s.toml", FContent.savefileToml Savefile.defaultValue)], []⟩
        "/s.toml" (Savefile.mk "apple" [] [] [] 8) =
      FS.writeSavefile
        ⟨[("/w.txt", FContent.raw "apple"),
          ("/s.toml", FContent.savefileToml Savefile.defaultValue)], []⟩
        "/s.toml" (Savefile.mk "apple" [] [] [] 8) :=
  handle_new_writes_fresh_record (some "/w.txt") "/s.toml"
    ⟨[("/w.txt", FContent.raw "apple"),
      ("/s.toml", FContent.savefileToml Savefile.defaultValue)], []⟩ 0 none
    (Savefile.mk "apple" [] [] [] 8)
    (FS.writeSavefile
      ⟨[("/w.txt", FContent.raw "apple"),
        ("/s.toml", FContent.savefileToml Savefile.defaultValue)], []⟩
      "/s.toml" (Savefile.mk "apple" [] [] [] 8))
    (by decide)

/-- Claim C4 (amended): with no explicit flag and no environment variable,
resolution deterministically yields `strikes = 8` and the per-platform
default savefile and logfile paths, but `wordlist` resolves to the path
`None` (the default provider encodes an unset path as the string literal
`None`, which extraction then reads back as a set path) rather than to an
unset value. -/
theorem default_resolution_values (home : String) (fs : FS) :
    resolveConfig home fs none none =
      some { wordlist := some "None"
           , savefile := some (home ++ "/.config/hangman_current_game.toml")
           , logfile := some (home ++ "/.config/hangman.log")
           , strikes := 8 } := rfl

/-- Counterexample to C4 as stated: with no flag and no environment
variable the resolved configuration is not the compiled-in default value;
its `wordlist` key is not unset but holds the path `None`. -/
theorem default_resolution_counterexample :
    resolveConfig "/home/user" ⟨[], []⟩ none none ≠
      some (Config.defaultFor "/home/user") ∧
    (resolveConfig "/home/user" ⟨[], []⟩ none none).map Config.wordlist =
      some (some "None") := by decide

/-- Claim C1 (amended): for every config file supplied via the explicit
flag and accepted by validation, the resolved configuration consists of the
file's values alone, not merged over the compiled-in defaults: keys the
file sets take the file's values, Option-typed keys the file omits resolve
to unset, and a file omitting `strikes` makes extraction fail fatally. -/
theorem explicit_config_no_merge (home : String) (fs : FS) (env : Option String)
    (p : String) (cf : ConfigFile)
    (hv : verify_toml_file fs p = true)
    (hp : fs.readConfigToml p = some cf) :
    resolveConfig home fs (some p) env = extractConfig cf.toDict ∧
    (cf.strikes = none → resolveConfig home fs (some p) env = none) ∧
    (∀ k, cf.strikes = some k → k ≤ 255 →
      resolveConfig home fs (some p) env =
        some ⟨cf.wordlist, cf.savefile, cf.logfile, k⟩) := by
  have hres : resolveConfig home fs (some p) env = extractConfig cf.toDict := by
    simp [resolveConfig, resolvedFigment, hv, hp]
  refine ⟨hres, ?_, ?_⟩
  · intro hk
    rw [hres]
    simp [extractConfig, ConfigFile.toDict, extractPathField_map_str, hk,
      extractStrikes]
  · intro k hk hk255
    rw [hres]
    simp [extractConfig, ConfigFile.toDict, extractPathField_map_str, hk,
      extractStrikes, hk255]

/-- Witness for C1 (amended): a validated explicit config file that sets
only `strikes = 5`. -/
theorem explicit_config_no_merge_witness :
    resolveConfig "/home/user"
        ⟨[("/tmp/conf.toml",
           FContent.configToml ⟨none, none, none, some 5⟩)], []⟩
        (some "/tmp/conf.toml") none =
      extractConfig (ConfigFile.toDict ⟨none, none, none, some 5⟩) ∧
    ((some 5 : Option Nat) = none →
      resolveConfig "/home/user"
        ⟨[("/tmp/conf.toml",
           FContent.configToml ⟨none, none, none, some 5⟩)], []⟩
        (some "/tmp/conf.toml") none = none) ∧
    (∀ k, (some 5 : Option Nat) = some k → k ≤ 255 →
      resolveConfig "/home/user"
        ⟨[("/tmp/conf.toml",
           FContent.configToml ⟨none, none, none, some 5⟩)], []⟩
        (some "/tmp/conf.toml") none = some ⟨none, none, none, k⟩) :=
  explicit_config_no_merge "/home/user"
    ⟨[("/tmp/conf.toml", FContent.configToml ⟨none, none, none, some 5⟩)], []⟩
    none "/tmp/conf.toml" ⟨none, none, none, some 5⟩ (by decide) (by decide)

/-- Counterexample to C1 as stated: a validated explicit config file that
sets `wordlist` but omits `strikes` makes resolution fail fatally instead
of producing the file's values merged over the compiled-in defaults. -/
theorem explicit_config_merge_counterexample :
    verify_toml_file
        ⟨[("/tmp/conf.toml",
           FContent.configToml ⟨some "/tmp/w.txt", none, none, none⟩)], []⟩
        "/tmp/conf.toml" = true ∧
    resolveConfig "/home/user"
        ⟨[("/tmp/conf.toml",
           FContent.configToml ⟨some "/tmp/w.txt", none, none, none⟩)], []⟩
        (some "/tmp/conf.toml") none = none ∧
    resolveConfig "/home/user"
        ⟨[("/tmp/conf.toml",
           FContent.configToml ⟨some "/tmp/w.txt", none, none, none⟩)], []⟩
        (some "/tmp/conf.toml") none ≠
      some (specMergeOverDefaults ⟨some "/tmp/w.txt", none, none, none⟩
        (Config.defaultFor "/home/user")) := by decide

/-- Claim C2 (code bug): an explicitly supplied config path that fails
validation is non-fatal, but contrary to the claim (and to the program's
own log message) the resolver does not proceed to `HANGMAN_CONFIG`: with an
invalid explicit path and the environment variable naming a valid config
file, resolution uses the compiled-in defaults and the environment file's
values are never loaded. -/
theorem invalid_explicit_config_skips_env :
    verify_toml_file
        ⟨[("/env/conf.toml",
           FContent.configToml ⟨none, some "/env/save.toml", none, some 3⟩)], []⟩
        "/missing.toml" = false ∧
    verify_toml_file
        ⟨[("/env/conf.toml",
           FContent.configToml ⟨none, some "/env/save.toml", none, some 3⟩)], []⟩
        "/env/conf.toml" = true ∧
    resolveConfig "/home/user"
        ⟨[("/env/conf.toml",
           FContent.configToml ⟨none, some "/env/save.toml", none, some 3⟩)], []⟩
        (some "/missing.toml") (some "/env/conf.toml") =
      extractConfig (Config.defaultFor "/home/user").toDict ∧
    resolveConfig "/home/user"
        ⟨[("/env/conf.toml",
           FContent.configToml ⟨none, some "/env/save.toml", none, some 3⟩)], []⟩
        (some "/missing.toml") (some "/env/conf.toml") ≠
      extractConfig (ConfigFile.toDict ⟨none, some "/env/save.toml", none, some 3⟩) :=
  by decide

end Hangman
